import Mathlib

/-!
Verification of the workflow engine and human-in-the-loop approval gate of the
vscode-agent-extension-starter repository.

The data model follows `src/types/index.d.ts`; the engine follows
`WorkflowEngine` (`executeWorkflow`, `executeWorkflowInternal`,
`cancelWorkflow`); the gate follows `HumanInTheLoopManager`
(`requestApproval`, `handleApproval`, `cancelApproval`, `getPendingApprovals`,
`getAllApprovals`, `shouldAutoApprove`).

Modelling conventions:
- JS `Promise`/timer side effects are made observable through explicit event
  lists (`EngineEv`, `GateEv`): resolving the decision future, starting or
  clearing a timer, showing the dialog, scheduling a delayed table deletion.
- A `setTimeout` callback body is a separate transition function
  (`approvalTimerFire`, `historyDeleteFire`) applied when that timer fires.
- Wall-clock values (`Date.now()`) are abstracted to explicit numeric
  arguments or to `0` where no claim depends on them.
- `uuidv4()` results are abstracted to caller-supplied fresh numeric ids.
- A stateful `Workflow` object is a `WorkflowImpl σ` (method table) together
  with a current instance state `σ`; `refine` produces the next instance
  state, mirroring `currentWorkflow = currentWorkflow.refine(observations)`.
- The free-form `details`/`result` payloads (`any` in TS) are abstracted to
  `Option String` or omitted where no claim touches them.
- Regex rule patterns are abstracted to boolean predicates on strings, so
  `rule.pattern.test(s)` becomes `rule.pattern s`.
-/

namespace AgentStarter

/-! ## Data model (`src/types/index.d.ts`) -/

/-- `WorkflowStep` from the type declarations (tool id / parameters omitted). -/
structure WorkflowStep where
  id : String
  description : String
  requiresApproval : Bool
deriving DecidableEq

/-- `Analysis`: output of the think phase. -/
structure Analysis where
  plan : String
  steps : List WorkflowStep
  requiresApproval : Bool
  confidence : Nat
deriving DecidableEq

/-- `ActionResult`: per-step outcome of the act phase. -/
structure ActionResult where
  stepId : String
  success : Bool
  result : Option String
  error : Option String
  duration : Nat
deriving DecidableEq

/-- `Observations`: outcome of the observe phase. -/
structure Observations where
  success : Bool
  requiresIteration : Bool
  feedback : String
  improvements : Option (List String)
deriving DecidableEq

/-- `WorkflowState.status` values. -/
inductive WStatus where
  | pending | thinking | acting | observing | completed | failed
deriving DecidableEq

/-- Phase names of `WorkflowPhase`. -/
inductive PhaseName where
  | think | act | observe
deriving DecidableEq

/-- Phase status of `WorkflowPhase`. -/
inductive PhaseStatus where
  | pending | in_progress | completed
deriving DecidableEq

/-- The value stored in `WorkflowPhase.result` (`any` in TS): one of the three
phase outputs. -/
inductive PhaseValue where
  | ofAnalysis (a : Analysis)
  | ofActions (l : List ActionResult)
  | ofObservations (o : Observations)
deriving DecidableEq

/-- `WorkflowPhase`. -/
structure WorkflowPhase where
  name : PhaseName
  status : PhaseStatus
  result : Option PhaseValue
deriving DecidableEq

/-- `WorkflowState`: one per in-flight `executeWorkflow` call. -/
structure WorkflowState where
  id : Nat
  name : String
  status : WStatus
  startTime : Nat
  endTime : Option Nat
  currentPhase : Option WorkflowPhase
  iterations : Nat
  error : Option String
deriving DecidableEq

/-- `WorkflowResult` returned by `executeWorkflow`. -/
structure WorkflowResult where
  success : Bool
  analysis : Analysis
  actions : List ActionResult
  observations : Observations
  iterations : Nat
deriving DecidableEq

/-- The configuration fields consumed by the engine and the gate
(`ExtensionConfig`). -/
structure ExtensionConfig where
  telemetryEnabled : Bool
  debugMode : Bool
  approvalTimeout : Nat
  maxConcurrentWorkflows : Nat
  autoApproveReadOnly : Bool
deriving DecidableEq

/-- A stateful `Workflow` object: `σ` is the instance state, the four methods
mirror the `Workflow` interface. `refine` returns the next instance state,
modelling `refine(observations): Workflow`. -/
structure WorkflowImpl (σ : Type) where
  id : String
  name : String
  think : σ → Analysis
  act : σ → Analysis → List ActionResult
  observe : σ → List ActionResult → Observations
  refine : σ → Observations → σ

/-! ## Workflow engine (`src/workflows/workflowEngine.ts`, `WorkflowEngine`) -/

/-- Observable engine events, in program order: status-field assignments,
phase method invocations, the governance consultation with its outcome, and
the `logger.warn` emitted when the iteration cap is hit. -/
inductive EngineEv where
  | setStatus (s : WStatus)
  | thinkCall
  | gateCall (approved : Bool)
  | actCall
  | observeCall
  | refineCall
  | capWarn
deriving DecidableEq

/-- `const maxIterations = this.config.maxConcurrentWorkflows || 5` with JS
falsiness (`0` is falsy). -/
def effectiveMaxIterations (config : ExtensionConfig) : Nat :=
  if config.maxConcurrentWorkflows = 0 then 5 else config.maxConcurrentWorkflows

/-- `token?.isCancellationRequested`: the token is an external flag read at
the top of each loop pass; it is modelled as a function of the iteration
counter at the moment of the read, and an absent token reads `false`. -/
def tokenCancelled (token : Option (Nat → Bool)) (k : Nat) : Bool :=
  match token with
  | some f => f k
  | none => false

/-- The JS optional chain `state.currentPhase?.result?.analysis`: none of the
three payload types stored in `result` has an `analysis` property, so the
access yields `undefined` in every case. -/
def PhaseValue.analysisProp : PhaseValue → Option Analysis
  | .ofAnalysis _ => none
  | .ofActions _ => none
  | .ofObservations _ => none

/-- The JS optional chain `state.currentPhase?.result?.actions`: likewise no
payload type has an `actions` property. -/
def PhaseValue.actionsProp : PhaseValue → Option (List ActionResult)
  | .ofAnalysis _ => none
  | .ofActions _ => none
  | .ofObservations _ => none

/-- The fallback analysis `{ plan: '', steps: [], requiresApproval: false,
confidence: 0 }` used when the iteration cap is reached. -/
def emptyAnalysis : Analysis :=
  { plan := "", steps := [], requiresApproval := false, confidence := 0 }

/-- The observations literal returned on denial. -/
def denialObservations : Observations :=
  { success := false, requiresIteration := false
    feedback := "Action denied by user", improvements := none }

/-- The `WorkflowResult` built after the `while` loop exits through the
iteration-cap `break` (lines 442-452 of the engine). -/
def capExitResult (maxIterations : Nat) (s : WorkflowState) : WorkflowResult :=
  { success := false
    analysis := ((s.currentPhase.bind fun p => p.result.bind PhaseValue.analysisProp).getD emptyAnalysis)
    actions := ((s.currentPhase.bind fun p => p.result.bind PhaseValue.actionsProp).getD [])
    observations :=
      { success := false, requiresIteration := false
        feedback := "Max iterations (" ++ toString maxIterations ++ ") reached"
        improvements := none }
    iterations := s.iterations }

/-- The post-loop code of `executeWorkflowInternal`: `state.status =
'completed'` and the cap result. -/
def capExit (config : ExtensionConfig) (s : WorkflowState) :
    Except String WorkflowResult × WorkflowState × List EngineEv :=
  (.ok (capExitResult (effectiveMaxIterations config) s),
   { s with status := .completed },
   [.capWarn, .setStatus .completed])

/-- The `while (true)` body of `executeWorkflowInternal`, lines 352-437: check
cancellation, check the cap, increment the counter, run think, consult the
gate when `analysis.requiresApproval && !config.autoApproveReadOnly`, run act
and observe, return when no iteration is required, otherwise refine and loop.
`gate k` is the awaited boolean result of
`governanceManager.requestApproval` when consulted during iteration `k`.
`fuel` bounds the number of loop entries; `executeWorkflow` supplies
`effectiveMaxIterations config + 1`, which always suffices because every pass
increments `iterations` and the cap check fires once `iterations` reaches the
cap, so the fuel-0 branch (defined as the same post-loop code) is never
taken from `executeWorkflow`. -/
def executeLoop {σ : Type} (config : ExtensionConfig) (impl : WorkflowImpl σ)
    (gate : Nat → Bool) (token : Option (Nat → Bool)) :
    Nat → σ → WorkflowState → Except String WorkflowResult × WorkflowState × List EngineEv
  | 0, _, s => capExit config s
  | fuel + 1, strat, s =>
    if tokenCancelled token s.iterations then
      -- lines 354-358: mark failed and throw `new Error('Workflow cancelled')`
      (.error "Workflow cancelled",
       { s with status := .failed, error := some "Cancelled by user" },
       [.setStatus .failed])
    else if s.iterations ≥ effectiveMaxIterations config then
      capExit config s
    else
      let s1 := { s with iterations := s.iterations + 1 }
      let s2 := { s1 with status := WStatus.thinking
                          currentPhase := some { name := .think, status := .in_progress, result := none } }
      let analysis := impl.think strat
      let s3 := { s2 with currentPhase := some { name := .think, status := .completed
                                                 result := some (.ofAnalysis analysis) } }
      let gateConsulted := analysis.requiresApproval && !config.autoApproveReadOnly
      let approved := gate s3.iterations
      if gateConsulted && !approved then
        -- lines 379-397: denial terminates the execution with a normal result
        let s4 := { s3 with status := WStatus.failed, error := some "Action denied by user" }
        (.ok { success := false, analysis := analysis, actions := []
               observations := denialObservations, iterations := s4.iterations },
         s4,
         [.setStatus .thinking, .thinkCall, .gateCall false, .setStatus .failed])
      else
        let s4 := { s3 with status := WStatus.acting
                            currentPhase := some { name := .act, status := .in_progress, result := none } }
        let actions := impl.act strat analysis
        let s5 := { s4 with currentPhase := some { name := .act, status := .completed
                                                   result := some (.ofActions actions) } }
        let s6 := { s5 with status := WStatus.observing
                            currentPhase := some { name := .observe, status := .in_progress, result := none } }
        let observations := impl.observe strat actions
        let s7 := { s6 with currentPhase := some { name := .observe, status := .completed
                                                   result := some (.ofObservations observations) } }
        let gateEvents := if gateConsulted then [EngineEv.gateCall approved] else []
        if !observations.requiresIteration then
          let s8 := { s7 with status := WStatus.completed }
          (.ok { success := observations.success, analysis := analysis, actions := actions
                 observations := observations, iterations := s8.iterations },
           s8,
           [EngineEv.setStatus .thinking, .thinkCall] ++ gateEvents ++
             [.setStatus .acting, .actCall, .setStatus .observing, .observeCall, .setStatus .completed])
        else
          let next := executeLoop config impl gate token fuel (impl.refine strat observations) s7
          (next.1, next.2.1,
           ([EngineEv.setStatus .thinking, .thinkCall] ++ gateEvents ++
             [.setStatus .acting, .actCall, .setStatus .observing, .observeCall, .refineCall]) ++ next.2.2)

/-- The fresh state registered on entry to `executeWorkflow` (lines 318-324):
initial status is `'thinking'`. Wall-clock start time abstracted to 0 and the
uuid to 0. -/
def initialWorkflowState {σ : Type} (impl : WorkflowImpl σ) : WorkflowState :=
  { id := 0, name := impl.name, status := .thinking, startTime := 0
    endTime := none, currentPhase := none, iterations := 0, error := none }

/-- `executeWorkflow` (lines 310-340): register a fresh state, run the loop,
then in the `finally` block stamp the end time and unconditionally set
`state.status = 'completed'` — this runs on every exit path, including the
denial and cancellation paths that had just set the status to `'failed'`.
The `finally` block also schedules removal of the state from the live table
60000 ms later (not modelled: no claim depends on the live-table retention).
The trace starts with the initial `status: 'thinking'` assignment and ends
with the `finally` assignment. -/
def executeWorkflow {σ : Type} (config : ExtensionConfig) (impl : WorkflowImpl σ)
    (gate : Nat → Bool) (token : Option (Nat → Bool)) (strat : σ) :
    Except String WorkflowResult × WorkflowState × List EngineEv :=
  let r := executeLoop config impl gate token (effectiveMaxIterations config + 1) strat
             (initialWorkflowState impl)
  (r.1,
   { r.2.1 with endTime := some 0, status := .completed },
   EngineEv.setStatus .thinking :: r.2.2 ++ [.setStatus .completed])

/-- Association-list lookup mirroring `Map.get`. -/
def mapLookup {β : Type} (m : List (Nat × β)) (k : Nat) : Option β :=
  match m with
  | [] => none
  | (k', v) :: rest => if k' = k then some v else mapLookup rest k

/-- `Map.set`: replace in place when the key exists, append otherwise. -/
def mapSet {β : Type} (m : List (Nat × β)) (k : Nat) (v : β) : List (Nat × β) :=
  match m with
  | [] => [(k, v)]
  | (k', v') :: rest => if k' = k then (k, v) :: rest else (k', v') :: mapSet rest k v

/-- `Map.delete`. -/
def mapDelete {β : Type} (m : List (Nat × β)) (k : Nat) : List (Nat × β) :=
  m.filter fun p => p.1 ≠ k

/-- `cancelWorkflow` (lines 489-501) acting on the live-workflow table:
returns false when the id is unknown, otherwise marks the state `'failed'`
with the cancellation error and an end time (abstracted to 0) and returns
true. Note that it only mutates the stored `WorkflowState`; the running loop
in `executeLoop` reads `token?.isCancellationRequested`, not this field. -/
def cancelWorkflow (m : List (Nat × WorkflowState)) (workflowId : Nat) :
    Bool × List (Nat × WorkflowState) :=
  match mapLookup m workflowId with
  | none => (false, m)
  | some s =>
    (true, mapSet m workflowId
      { s with status := .failed, error := some "Cancelled by user", endTime := some 0 })

/-- `getActiveWorkflows`. -/
def getActiveWorkflows (m : List (Nat × WorkflowState)) : List WorkflowState :=
  m.map (·.2)

/-- `getWorkflowState`. -/
def getWorkflowState (m : List (Nat × WorkflowState)) (workflowId : Nat) :
    Option WorkflowState :=
  mapLookup m workflowId

/-! ## Approval gate (`src/governance/humanInTheLoop.ts`, `HumanInTheLoopManager`) -/

/-- `ApprovalRequest.status` values. -/
inductive AStatus where
  | pending | approved | denied | expired
deriving DecidableEq

/-- `ProposedAction` (the free-form `details` payload is omitted; no claim
touches it). Impact is kept as its literal string. -/
structure ProposedAction where
  type : String
  description : String
  impact : String
  reversible : Bool
deriving DecidableEq

/-- `ApprovalRequest` (uuid abstracted to `Nat`). -/
structure ApprovalRequest where
  id : Nat
  action : ProposedAction
  timestamp : Nat
  status : AStatus
  response : Option String
deriving DecidableEq

/-- `GovernanceRule`; the regex is abstracted to a boolean predicate, so
`rule.pattern.test(s)` becomes `rule.pattern s`. -/
structure GovernanceRule where
  id : String
  pattern : String → Bool
  requiresApproval : Bool
  autoApprove : Bool
  priority : Int

/-- The manager's mutable fields: the single request table
`pendingApprovals` (serving both the pending view and the all/history view),
the rule list (kept sorted by descending priority), and the set of request
ids holding a live `{resolve, timeout}` handler. -/
structure HITLState where
  pendingApprovals : List (Nat × ApprovalRequest)
  governanceRules : List GovernanceRule
  approvalHandlers : List Nat

/-- Observable gate events: timer lifecycle, resolution of the decision
future returned by `requestApproval`, the approval dialog invocation, and the
scheduling of the delayed history eviction. -/
inductive GateEv where
  | timerStarted (requestId : Nat) (timeoutMs : Nat)
  | timerCleared (requestId : Nat)
  | resolvedFuture (requestId : Nat) (approved : Bool)
  | dialogShown (requestId : Nat)
  | scheduledHistoryDelete (requestId : Nat) (delayMs : Nat)
deriving DecidableEq

/-- `timeout || this.config.approvalTimeout || 30000` with JS falsiness
(`undefined` and `0` are falsy). -/
def effectiveTimeout (timeout : Option Nat) (config : ExtensionConfig) : Nat :=
  match timeout with
  | some t =>
    if t ≠ 0 then t
    else if config.approvalTimeout ≠ 0 then config.approvalTimeout else 30000
  | none => if config.approvalTimeout ≠ 0 then config.approvalTimeout else 30000

/-- `shouldAutoApprove` (lines 196-205): walk the rules in stored order; a
rule whose pattern matches the action type or description and whose
`autoApprove` flag is set returns true; a matching rule without the flag
falls through to the remaining rules. -/
def shouldAutoApprove (rules : List GovernanceRule) (action : ProposedAction) : Bool :=
  match rules with
  | [] => false
  | r :: rest =>
    if r.pattern action.type || r.pattern action.description then
      if r.autoApprove then true else shouldAutoApprove rest action
    else shouldAutoApprove rest action

/-- `shouldAutoDeny` (lines 210-214): dead code, always false. -/
def shouldAutoDeny (_action : ProposedAction) : Bool :=
  false

/-- Outcome of `requestApproval` as seen by its caller: either the returned
promise is already resolved (auto approval/denial), or a pending request was
registered and the promise will be settled later by `handleApproval`,
`approvalTimerFire`, `cancelApproval` or `dispose`. -/
inductive RequestOutcome where
  | immediate (approved : Bool)
  | pendingDecision (requestId : Nat)
deriving DecidableEq

/-- `requestApproval` (lines 32-74): compute the timeout, try auto-approval
then auto-denial, otherwise create a pending `ApprovalRequest`, register it
in the table, start the timeout timer, store the handler and fire the
approval dialog. `freshId` stands for the generated uuid and `now` for
`Date.now()`. -/
def requestApproval (config : ExtensionConfig) (st : HITLState)
    (action : ProposedAction) (timeout : Option Nat) (freshId : Nat) (now : Nat) :
    RequestOutcome × HITLState × List GateEv :=
  let timeoutMs := effectiveTimeout timeout config
  if shouldAutoApprove st.governanceRules action then
    (.immediate true, st, [])
  else if shouldAutoDeny action then
    (.immediate false, st, [])
  else
    let request : ApprovalRequest :=
      { id := freshId, action := action, timestamp := now, status := .pending, response := none }
    (.pendingDecision freshId,
     { st with pendingApprovals := mapSet st.pendingApprovals freshId request
               approvalHandlers := st.approvalHandlers ++ [freshId] },
     [.timerStarted freshId timeoutMs, .dialogShown freshId])

/-- `handleApproval` (lines 79-110): an unknown id is a warn-and-return
no-op; otherwise the stored request's status and response are overwritten,
then — only if a live handler remains — the timer is cleared, the decision
future is resolved and the handler is removed; finally a deletion of the
table entry is scheduled 60000 ms later. -/
def handleApproval (st : HITLState) (requestId : Nat) (approved : Bool)
    (comment : Option String) : HITLState × List GateEv :=
  match mapLookup st.pendingApprovals requestId with
  | none => (st, [])
  | some request =>
    let request1 := { request with
      status := if approved then AStatus.approved else AStatus.denied
      response := comment }
    let st1 := { st with pendingApprovals := mapSet st.pendingApprovals requestId request1 }
    if st1.approvalHandlers.contains requestId then
      ({ st1 with approvalHandlers := st1.approvalHandlers.filter fun h => h ≠ requestId },
       [.timerCleared requestId, .resolvedFuture requestId approved,
        .scheduledHistoryDelete requestId 60000])
    else
      (st1, [.scheduledHistoryDelete requestId 60000])

/-- The timeout callback installed by `requestApproval` (lines 60-66), run
when the timer fires (it can only fire while its handler is live, since every
other settlement path clears the timer): the closed-over request object is
marked `'expired'` (returned as the third component, mirroring the view of
any holder of the object), the entry is removed from the table and the
handler map, and the decision future resolves false. -/
def approvalTimerFire (st : HITLState) (requestId : Nat) :
    HITLState × List GateEv × Option ApprovalRequest :=
  ({ st with pendingApprovals := mapDelete st.pendingApprovals requestId
             approvalHandlers := st.approvalHandlers.filter fun h => h ≠ requestId },
   [.resolvedFuture requestId false],
   (mapLookup st.pendingApprovals requestId).map fun r => { r with status := AStatus.expired })

/-- The callback of the 60000 ms retention timer scheduled by
`handleApproval` (lines 107-109): delete the entry from the table. -/
def historyDeleteFire (st : HITLState) (requestId : Nat) : HITLState :=
  { st with pendingApprovals := mapDelete st.pendingApprovals requestId }

/-- `getPendingApprovals` (lines 115-119): the table values with status
`'pending'`. -/
def getPendingApprovals (st : HITLState) : List ApprovalRequest :=
  (st.pendingApprovals.map (·.2)).filter fun r => r.status = AStatus.pending

/-- `getAllApprovals` (lines 124-126): every table value. -/
def getAllApprovals (st : HITLState) : List ApprovalRequest :=
  st.pendingApprovals.map (·.2)

/-- Stable insertion used to model `push` + `sort((a, b) => b.priority -
a.priority)`. -/
def insertRuleDesc (r : GovernanceRule) : List GovernanceRule → List GovernanceRule
  | [] => [r]
  | r' :: rest =>
    if r'.priority ≥ r.priority then r' :: insertRuleDesc r rest else r :: r' :: rest

/-- `addRule` (lines 131-135): append the rule and re-sort by descending
priority. -/
def addRule (st : HITLState) (rule : GovernanceRule) : HITLState :=
  { st with governanceRules := insertRuleDesc rule st.governanceRules }

/-- `cancelApproval` (lines 255-274): returns false for an unknown or
already-settled id; otherwise marks the stored request denied with response
`'Cancelled'`, clears the timer and resolves the future false when a handler
is live, removes the handler and deletes the entry from the table
immediately. -/
def cancelApproval (st : HITLState) (requestId : Nat) :
    Bool × HITLState × List GateEv :=
  match mapLookup st.pendingApprovals requestId with
  | none => (false, st, [])
  | some request =>
    if request.status ≠ AStatus.pending then
      (false, st, [])
    else
      let request1 := { request with status := AStatus.denied, response := some "Cancelled" }
      let evs :=
        if st.approvalHandlers.contains requestId then
          [GateEv.timerCleared requestId, .resolvedFuture requestId false]
        else []
      (true,
       { st with
         pendingApprovals := mapDelete (mapSet st.pendingApprovals requestId request1) requestId
         approvalHandlers := st.approvalHandlers.filter fun h => h ≠ requestId },
       evs)

/-- `dispose` (lines 279-289): resolve every live handler false, clear both
maps. -/
def dispose (st : HITLState) : HITLState × List GateEv :=
  ({ st with pendingApprovals := [], approvalHandlers := [] },
   st.approvalHandlers.flatMap fun h => [GateEv.timerCleared h, .resolvedFuture h false])

/-! ## Concrete fixtures used by witnesses and counterexamples -/

/-- A single workflow step. -/
def sampleStep : WorkflowStep :=
  { id := "s1", description := "write the file", requiresApproval := false }

/-- An analysis that requires approval. -/
def approvalAnalysis : Analysis :=
  { plan := "write data", steps := [sampleStep], requiresApproval := true, confidence := 1 }

/-- An analysis that does not require approval. -/
def plainAnalysis : Analysis :=
  { plan := "read data", steps := [sampleStep], requiresApproval := false, confidence := 1 }

/-- A successful action result. -/
def sampleActionResult : ActionResult :=
  { stepId := "s1", success := true, result := some "ok", error := none, duration := 3 }

/-- Observations that finish the workflow successfully. -/
def doneObservations : Observations :=
  { success := true, requiresIteration := false, feedback := "done", improvements := none }

/-- Observations that request another iteration. -/
def iterObservations : Observations :=
  { success := true, requiresIteration := true, feedback := "again", improvements := none }

/-- A configuration with iteration cap 2, default approval timeout, and
auto-approve-everything disabled. -/
def cfg2 : ExtensionConfig :=
  { telemetryEnabled := false, debugMode := false, approvalTimeout := 0
    maxConcurrentWorkflows := 2, autoApproveReadOnly := false }

/-- A stateless workflow whose plan requires approval and which finishes
after one iteration. -/
def approvalWorkflow : WorkflowImpl Unit :=
  { id := "w1", name := "approval-workflow"
    think := fun _ => approvalAnalysis
    act := fun _ _ => [sampleActionResult]
    observe := fun _ _ => doneObservations
    refine := fun s _ => s }

/-- A stateless workflow that never requires approval and always asks for
another iteration. -/
def loopingWorkflow : WorkflowImpl Unit :=
  { id := "w2", name := "looping-workflow"
    think := fun _ => plainAnalysis
    act := fun _ _ => [sampleActionResult]
    observe := fun _ _ => iterObservations
    refine := fun s _ => s }

/-- A stateless workflow that finishes in its first iteration without
approval. -/
def oneShotWorkflow : WorkflowImpl Unit :=
  { id := "w3", name := "one-shot-workflow"
    think := fun _ => plainAnalysis
    act := fun _ _ => [sampleActionResult]
    observe := fun _ _ => doneObservations
    refine := fun s _ => s }

/-! ## Engine lemmas -/

/-- Along the loop the iteration counter never decreases. -/
theorem executeLoop_iterations_mono {σ : Type} (config : ExtensionConfig)
    (impl : WorkflowImpl σ) (gate : Nat → Bool) (token : Option (Nat → Bool)) :
    ∀ (fuel : Nat) (strat : σ) (s : WorkflowState),
      s.iterations ≤ (executeLoop config impl gate token fuel strat s).2.1.iterations
  | 0, strat, s => by simp [executeLoop, capExit]
  | fuel + 1, strat, s => by
    have ih := executeLoop_iterations_mono config impl gate token fuel
    simp only [executeLoop]
    split
    · simp
    · split
      · simp [capExit]
      · split
        · simp
        · split
          · simp
          · dsimp only
            refine le_trans ?_ (ih _ _)
            exact Nat.le_succ _

/-- When the loop is entered with the iteration counter within the
configured cap, it stays within the cap. -/
theorem executeLoop_iterations_le {σ : Type} (config : ExtensionConfig)
    (impl : WorkflowImpl σ) (gate : Nat → Bool) (token : Option (Nat → Bool)) :
    ∀ (fuel : Nat) (strat : σ) (s : WorkflowState),
      s.iterations ≤ effectiveMaxIterations config →
      (executeLoop config impl gate token fuel strat s).2.1.iterations ≤
        effectiveMaxIterations config
  | 0, strat, s => by simp [executeLoop, capExit]
  | fuel + 1, strat, s => by
    intro hs
    have ih := executeLoop_iterations_le config impl gate token fuel
    simp only [executeLoop]
    split
    · simpa using hs
    · split
      next hcap => simpa [capExit] using hs
      next hcap =>
        simp only [not_le] at hcap
        split
        · simpa using hcap
        · split
          · simpa using hcap
          · dsimp only
            exact ih _ _ hcap

/-! ## Claim C1 -/

/-- C1 counterexample: a concrete execution in which the status, having been
set to `'failed'` by a denial, is afterwards set to `'completed'` by the
cleanup in `executeWorkflow`: the claim that a `'failed'` status is never
later changed to `'completed'` is false. The configuration has
auto-approve-everything off, the workflow's plan requires approval, and the
gate denies. -/
theorem c1_counterexample :
    (executeWorkflow cfg2 approvalWorkflow (fun _ => false) none ()).2.2 =
      [EngineEv.setStatus .thinking, .setStatus .thinking, .thinkCall, .gateCall false,
       .setStatus .failed, .setStatus .completed] ∧
    (executeWorkflow cfg2 approvalWorkflow (fun _ => false) none ()).2.1.status =
      WStatus.completed := by
  constructor
  · rfl
  · rfl

/-- C1 (amended): inside the loop the status walks forward through
thinking/acting/observing and a terminal assignment per iteration, and the
iteration counter is monotonically non-decreasing and bounded by the
configured cap; but the status-order invariant fails as stated: each new
iteration resets the status from `observing` back to `thinking`, and the
cleanup in `executeWorkflow` unconditionally overwrites the final status with
`'completed'` — even when a denial or cancellation had just set it to
`'failed'`. This theorem records the parts that hold: the final status is
always `'completed'`, the final iteration count never exceeds the configured
cap, and the iteration counter never decreases along the loop. -/
theorem c1_amended_status_and_iterations {σ : Type} (config : ExtensionConfig)
    (impl : WorkflowImpl σ) (gate : Nat → Bool) (token : Option (Nat → Bool)) (strat : σ) :
    (executeWorkflow config impl gate token strat).2.1.status = WStatus.completed ∧
    (executeWorkflow config impl gate token strat).2.1.iterations ≤
      effectiveMaxIterations config ∧
    ∀ (fuel : Nat) (strat' : σ) (s : WorkflowState),
      s.iterations ≤ (executeLoop config impl gate token fuel strat' s).2.1.iterations := by
  refine ⟨rfl, ?_, fun fuel strat' s => executeLoop_iterations_mono config impl gate token fuel strat' s⟩
  have h := executeLoop_iterations_le config impl gate token
    (effectiveMaxIterations config + 1) strat (initialWorkflowState impl)
    (by simp [initialWorkflowState])
  simpa [executeWorkflow] using h

/-! ## Claim C3 -/

/-- If the loop trace contains a gate denial, the loop returned immediately
at that denial: the trace ends right there with the `'failed'` status
assignment (so no act/observe/think event follows the denial), and the value
is a normal `.ok` result with `success := false`, empty actions, the denial
observations, and the iteration count of the final state. -/
theorem executeLoop_gate_denial {σ : Type} (config : ExtensionConfig)
    (impl : WorkflowImpl σ) (gate : Nat → Bool) (token : Option (Nat → Bool)) :
    ∀ (fuel : Nat) (strat : σ) (s : WorkflowState),
      EngineEv.gateCall false ∈ (executeLoop config impl gate token fuel strat s).2.2 →
      ∃ pre a,
        (executeLoop config impl gate token fuel strat s).2.2 =
          pre ++ [EngineEv.gateCall false, .setStatus .failed] ∧
        (executeLoop config impl gate token fuel strat s).1 =
          .ok { success := false, analysis := a, actions := []
                observations := denialObservations
                iterations := (executeLoop config impl gate token fuel strat s).2.1.iterations }
  | 0, strat, s => by
    intro h
    simp [executeLoop, capExit] at h
  | fuel + 1, strat, s => by
    intro h
    have ih := executeLoop_gate_denial config impl gate token fuel
    by_cases hc : tokenCancelled token s.iterations = true
    · simp [executeLoop, hc] at h
    by_cases hcap : effectiveMaxIterations config ≤ s.iterations
    · simp [executeLoop, hc, hcap, capExit] at h
    · simp only [executeLoop] at h ⊢
      cases hA : (impl.think strat).requiresApproval with
      | false =>
        cases hobs : (impl.observe strat (impl.act strat (impl.think strat))).requiresIteration with
        | false => simp [hc, hcap, hA, hobs] at h
        | true =>
          simp [hc, hcap, hA, hobs] at h ⊢
          obtain ⟨pre, a, hpre, hres⟩ := ih _ _ h
          exact ⟨⟨[EngineEv.setStatus .thinking, .thinkCall, .setStatus .acting, .actCall,
            .setStatus .observing, .observeCall, .refineCall] ++ pre, by rw [hpre]; simp⟩, a, hres⟩
      | true =>
        cases hauto : config.autoApproveReadOnly with
        | true =>
          cases hobs : (impl.observe strat (impl.act strat (impl.think strat))).requiresIteration with
          | false => simp [hc, hcap, hA, hauto, hobs] at h
          | true =>
            simp [hc, hcap, hA, hauto, hobs] at h ⊢
            obtain ⟨pre, a, hpre, hres⟩ := ih _ _ h
            exact ⟨⟨[EngineEv.setStatus .thinking, .thinkCall, .setStatus .acting, .actCall,
              .setStatus .observing, .observeCall, .refineCall] ++ pre, by rw [hpre]; simp⟩, a, hres⟩
        | false =>
          cases hgate : gate (s.iterations + 1) with
          | false =>
            refine ⟨[EngineEv.setStatus .thinking, .thinkCall], impl.think strat, ?_, ?_⟩
            · simp [hc, hcap, hA, hauto, hgate]
            · simp [hc, hcap, hA, hauto, hgate]
          | true =>
            cases hobs : (impl.observe strat (impl.act strat (impl.think strat))).requiresIteration with
            | false => simp [hc, hcap, hA, hauto, hgate, hobs] at h
            | true =>
              simp [hc, hcap, hA, hauto, hgate, hobs] at h ⊢
              obtain ⟨pre, a, hpre, hres⟩ := ih _ _ h
              exact ⟨⟨[EngineEv.setStatus .thinking, .thinkCall, .gateCall true,
                .setStatus .acting, .actCall, .setStatus .observing, .observeCall,
                .refineCall] ++ pre, by rw [hpre]; simp⟩, a, hres⟩

/-- C3: whenever an iteration consults the approval gate and the gate denies
(a `gateCall false` event occurs), the whole execution terminates right
there: the only events after the denial are the `'failed'` status assignment
and the final cleanup assignment — in particular no act, observe or think
call follows, so act/observe are bypassed for that iteration — and the value
returned by `executeWorkflow` is a normal `.ok` result (not an exception)
with `success := false`, empty actions, observations `{success: false,
requiresIteration: false, feedback: "Action denied by user"}`, and the
iteration count reached so far. The gate is only consulted when the analysis
requires approval and the auto-approve-everything flag is off, so the
hypothesis covers exactly the claimed situation. -/
theorem c3_denial_terminates_execution {σ : Type} (config : ExtensionConfig)
    (impl : WorkflowImpl σ) (gate : Nat → Bool) (token : Option (Nat → Bool)) (strat : σ)
    (h : EngineEv.gateCall false ∈ (executeWorkflow config impl gate token strat).2.2) :
    (∃ pre, (executeWorkflow config impl gate token strat).2.2 =
        pre ++ [EngineEv.gateCall false, .setStatus .failed, .setStatus .completed]) ∧
    ∃ a, (executeWorkflow config impl gate token strat).1 =
        .ok { success := false, analysis := a, actions := []
              observations := denialObservations
              iterations := (executeWorkflow config impl gate token strat).2.1.iterations } := by
  have hmem : EngineEv.gateCall false ∈
      (executeLoop config impl gate token (effectiveMaxIterations config + 1) strat
        (initialWorkflowState impl)).2.2 := by
    simpa [executeWorkflow] using h
  obtain ⟨pre, a, hpre, hres⟩ :=
    executeLoop_gate_denial config impl gate token _ strat (initialWorkflowState impl) hmem
  constructor
  · refine ⟨EngineEv.setStatus .thinking :: pre, ?_⟩
    simp only [executeWorkflow]
    rw [hpre]
    simp
  · refine ⟨a, ?_⟩
    simp only [executeWorkflow]
    exact hres

/-- No `PhaseValue` carries an `analysis` property. -/
theorem analysisProp_eq_none (v : PhaseValue) : v.analysisProp = none := by
  cases v <;> rfl

/-- No `PhaseValue` carries an `actions` property. -/
theorem actionsProp_eq_none (v : PhaseValue) : v.actionsProp = none := by
  cases v <;> rfl

/-- The cap-exit result always carries the fallback empty analysis and empty
action list, whatever the state holds, because the optional-chain accesses
are always undefined. -/
theorem capExitResult_fallback (m : Nat) (s : WorkflowState) :
    (capExitResult m s).analysis = emptyAnalysis ∧ (capExitResult m s).actions = [] := by
  constructor <;>
    simp [capExitResult, Option.bind_eq_none, analysisProp_eq_none, actionsProp_eq_none]

/-- With no cancellation token, a gate that always approves, and a strategy
whose observe always demands another iteration, the loop always exits
through the iteration cap with the counter exactly at the cap. -/
theorem executeLoop_always_iterates {σ : Type} (config : ExtensionConfig)
    (impl : WorkflowImpl σ) (gate : Nat → Bool)
    (hobs : ∀ (st : σ) (acts : List ActionResult),
      (impl.observe st acts).requiresIteration = true)
    (hgate : ∀ k, gate k = true) :
    ∀ (fuel : Nat) (strat : σ) (s : WorkflowState),
      s.iterations + fuel = effectiveMaxIterations config + 1 →
      s.iterations ≤ effectiveMaxIterations config →
      ∃ sf : WorkflowState,
        (executeLoop config impl gate none fuel strat s).1 =
          .ok (capExitResult (effectiveMaxIterations config) sf) ∧
        (executeLoop config impl gate none fuel strat s).2.1.iterations =
          effectiveMaxIterations config ∧
        sf.iterations = effectiveMaxIterations config
  | 0, strat, s => by
    intro h1 h2
    omega
  | fuel + 1, strat, s => by
    intro h1 h2
    have ih := executeLoop_always_iterates config impl gate hobs hgate fuel
    by_cases hcap : effectiveMaxIterations config ≤ s.iterations
    · have hit : s.iterations = effectiveMaxIterations config := le_antisymm h2 hcap
      refine ⟨s, ?_, ?_, hit⟩
      · simp [executeLoop, tokenCancelled, hcap, capExit]
      · simp [executeLoop, tokenCancelled, hcap, capExit, hit]
    · obtain ⟨sf, ih1, ih2, ih3⟩ := ih
        (impl.refine strat (impl.observe strat (impl.act strat (impl.think strat))))
        { s with
          status := WStatus.observing
          currentPhase := some { name := PhaseName.observe, status := PhaseStatus.completed
                                 result := some (PhaseValue.ofObservations
                                   (impl.observe strat (impl.act strat (impl.think strat)))) }
          iterations := s.iterations + 1 }
        (by show s.iterations + 1 + fuel = effectiveMaxIterations config + 1; omega)
        (by show s.iterations + 1 ≤ effectiveMaxIterations config; omega)
      refine ⟨sf, ?_, ?_, ih3⟩
      · simp only [executeLoop]
        simp [tokenCancelled, hcap, hgate, hobs]
        exact ih1
      · simp only [executeLoop]
        simp [tokenCancelled, hcap, hgate, hobs]
        exact ih2

/-- C4: for every strategy whose observe always reports
`requiresIteration: true` (with total phases and a gate that always
approves, no cancellation token), `executeWorkflow` terminates normally
after exactly the configured iteration cap many iterations, with
`success: false`, the iteration count equal to the cap, and feedback
`"Max iterations (<cap>) reached"` (which contains the cap value). The
default cap is 5 when `maxConcurrentWorkflows` is unset — see the witness. -/
theorem c4_always_iterate_reaches_cap {σ : Type} (config : ExtensionConfig)
    (impl : WorkflowImpl σ) (gate : Nat → Bool) (strat : σ)
    (hobs : ∀ (st : σ) (acts : List ActionResult),
      (impl.observe st acts).requiresIteration = true)
    (hgate : ∀ k, gate k = true) :
    (executeWorkflow config impl gate none strat).1 =
      .ok { success := false, analysis := emptyAnalysis, actions := []
            observations :=
              { success := false, requiresIteration := false
                feedback := "Max iterations (" ++ toString (effectiveMaxIterations config) ++
                  ") reached"
                improvements := none }
            iterations := effectiveMaxIterations config } ∧
    (executeWorkflow config impl gate none strat).2.1.iterations =
      effectiveMaxIterations config := by
  obtain ⟨sf, h1, h2, h3⟩ := executeLoop_always_iterates config impl gate hobs hgate
    (effectiveMaxIterations config + 1) strat (initialWorkflowState impl)
    (by simp [initialWorkflowState]) (by simp [initialWorkflowState])
  obtain ⟨ha, hact⟩ := capExitResult_fallback (effectiveMaxIterations config) sf
  constructor
  · simp only [executeWorkflow]
    rw [h1]
    congr 1
    simp only [capExitResult] at ha hact ⊢
    simp [WorkflowResult.mk.injEq, ha, hact, h3]
  · simpa [executeWorkflow] using h2

/-- C4 witness: a concrete always-iterating workflow under a configuration
whose `maxConcurrentWorkflows` is 0, so the default cap 5 applies. -/
theorem c4_always_iterate_reaches_cap_witness :
    (∀ (st : Unit) (acts : List ActionResult),
      (loopingWorkflow.observe st acts).requiresIteration = true) ∧
    (∀ k : Nat, (fun _ : Nat => true) k = true) ∧
    ((executeWorkflow
        { telemetryEnabled := false, debugMode := false, approvalTimeout := 0
          maxConcurrentWorkflows := 0, autoApproveReadOnly := false }
        loopingWorkflow (fun _ => true) none ()).1 =
      .ok { success := false, analysis := emptyAnalysis, actions := []
            observations :=
              { success := false, requiresIteration := false
                feedback := "Max iterations (" ++ toString (effectiveMaxIterations
                  { telemetryEnabled := false, debugMode := false, approvalTimeout := 0
                    maxConcurrentWorkflows := 0, autoApproveReadOnly := false }) ++
                  ") reached"
                improvements := none }
            iterations := effectiveMaxIterations
              { telemetryEnabled := false, debugMode := false, approvalTimeout := 0
                maxConcurrentWorkflows := 0, autoApproveReadOnly := false } } ∧
     (executeWorkflow
        { telemetryEnabled := false, debugMode := false, approvalTimeout := 0
          maxConcurrentWorkflows := 0, autoApproveReadOnly := false }
        loopingWorkflow (fun _ => true) none ()).2.1.iterations =
      effectiveMaxIterations
        { telemetryEnabled := false, debugMode := false, approvalTimeout := 0
          maxConcurrentWorkflows := 0, autoApproveReadOnly := false }) :=
  ⟨fun _ _ => rfl, fun _ => rfl,
   c4_always_iterate_reaches_cap
     { telemetryEnabled := false, debugMode := false, approvalTimeout := 0
       maxConcurrentWorkflows := 0, autoApproveReadOnly := false }
     loopingWorkflow (fun _ => true) () (fun _ _ => rfl) (fun _ => rfl)⟩

/-- C3 witness: the concrete denial run used for C1 satisfies the hypothesis
and hence the conclusion of the theorem. -/
theorem c3_denial_terminates_execution_witness :
    (EngineEv.gateCall false ∈
      (executeWorkflow cfg2 approvalWorkflow (fun _ => false) none ()).2.2) ∧
    ((∃ pre, (executeWorkflow cfg2 approvalWorkflow (fun _ => false) none ()).2.2 =
        pre ++ [EngineEv.gateCall false, .setStatus .failed, .setStatus .completed]) ∧
    ∃ a, (executeWorkflow cfg2 approvalWorkflow (fun _ => false) none ()).1 =
        .ok { success := false, analysis := a, actions := []
              observations := denialObservations
              iterations := (executeWorkflow cfg2 approvalWorkflow (fun _ => false) none ()).2.1.iterations }) :=
  ⟨by decide, c3_denial_terminates_execution cfg2 approvalWorkflow (fun _ => false) none () (by decide)⟩

/-! ## Claim C9 -/

/-- The effective iteration cap is always at least 1. -/
theorem effectiveMaxIterations_pos (config : ExtensionConfig) :
    1 ≤ effectiveMaxIterations config := by
  unfold effectiveMaxIterations
  split <;> omega

/-- C9: for every strategy whose first observe call reports
`requiresIteration: false` (with total phases and no denial: if the first
analysis requires approval and auto-approve-everything is off, the gate
approves), `executeWorkflow` returns after exactly one iteration a normal
result whose `success` equals the observations' success flag, and the final
status is `'completed'`. -/
theorem c9_single_iteration {σ : Type} (config : ExtensionConfig)
    (impl : WorkflowImpl σ) (gate : Nat → Bool) (strat : σ)
    (hobs : (impl.observe strat (impl.act strat (impl.think strat))).requiresIteration = false)
    (happ : (impl.think strat).requiresApproval = true → config.autoApproveReadOnly = false →
      gate 1 = true) :
    (executeWorkflow config impl gate none strat).1 =
      .ok { success := (impl.observe strat (impl.act strat (impl.think strat))).success
            analysis := impl.think strat
            actions := impl.act strat (impl.think strat)
            observations := impl.observe strat (impl.act strat (impl.think strat))
            iterations := 1 } ∧
    (executeWorkflow config impl gate none strat).2.1.status = WStatus.completed := by
  have hge := effectiveMaxIterations_pos config
  have hcap0 : ¬ effectiveMaxIterations config ≤ 0 := by omega
  constructor
  · simp only [executeWorkflow, executeLoop]
    cases hA : (impl.think strat).requiresApproval with
    | false => simp [initialWorkflowState, tokenCancelled, hcap0, hA, hobs]
    | true =>
      cases hauto : config.autoApproveReadOnly with
      | true => simp [initialWorkflowState, tokenCancelled, hcap0, hA, hauto, hobs]
      | false =>
        have hg : gate 1 = true := happ hA hauto
        simp [initialWorkflowState, tokenCancelled, hcap0, hA, hauto, hobs, hg]
  · rfl

/-- C9 witness: a concrete one-iteration workflow. -/
theorem c9_single_iteration_witness :
    ((oneShotWorkflow.observe () (oneShotWorkflow.act () (oneShotWorkflow.think ()))).requiresIteration = false) ∧
    ((oneShotWorkflow.think ()).requiresApproval = true → cfg2.autoApproveReadOnly = false →
      (fun _ : Nat => true) 1 = true) ∧
    ((executeWorkflow cfg2 oneShotWorkflow (fun _ => true) none ()).1 =
      .ok { success := (oneShotWorkflow.observe () (oneShotWorkflow.act () (oneShotWorkflow.think ()))).success
            analysis := oneShotWorkflow.think ()
            actions := oneShotWorkflow.act () (oneShotWorkflow.think ())
            observations := oneShotWorkflow.observe () (oneShotWorkflow.act () (oneShotWorkflow.think ()))
            iterations := 1 } ∧
     (executeWorkflow cfg2 oneShotWorkflow (fun _ => true) none ()).2.1.status = WStatus.completed) :=
  ⟨rfl, fun _ _ => rfl,
   c9_single_iteration cfg2 oneShotWorkflow (fun _ => true) () rfl (fun _ _ => rfl)⟩

/-! ## Claim C10 -/

/-- Whenever the loop trace shows the iteration-cap warning, the loop's value
is the cap-exit result built from the final state. -/
theorem executeLoop_capWarn_result {σ : Type} (config : ExtensionConfig)
    (impl : WorkflowImpl σ) (gate : Nat → Bool) (token : Option (Nat → Bool)) :
    ∀ (fuel : Nat) (strat : σ) (s : WorkflowState),
      EngineEv.capWarn ∈ (executeLoop config impl gate token fuel strat s).2.2 →
      (executeLoop config impl gate token fuel strat s).1 =
        .ok (capExitResult (effectiveMaxIterations config)
          (executeLoop config impl gate token fuel strat s).2.1)
  | 0, strat, s => by
    intro h
    simp [executeLoop, capExit, capExitResult]
  | fuel + 1, strat, s => by
    intro h
    have ih := executeLoop_capWarn_result config impl gate token fuel
    by_cases hc : tokenCancelled token s.iterations = true
    · simp [executeLoop, hc] at h
    by_cases hcap : effectiveMaxIterations config ≤ s.iterations
    · simp [executeLoop, hc, hcap, capExit, capExitResult]
    · simp only [executeLoop] at h ⊢
      cases hA : (impl.think strat).requiresApproval with
      | false =>
        cases hobs : (impl.observe strat (impl.act strat (impl.think strat))).requiresIteration with
        | false => simp [hc, hcap, hA, hobs] at h
        | true =>
          simp [hc, hcap, hA, hobs] at h ⊢
          exact ih _ _ h
      | true =>
        cases hauto : config.autoApproveReadOnly with
        | true =>
          cases hobs : (impl.observe strat (impl.act strat (impl.think strat))).requiresIteration with
          | false => simp [hc, hcap, hA, hauto, hobs] at h
          | true =>
            simp [hc, hcap, hA, hauto, hobs] at h ⊢
            exact ih _ _ h
        | false =>
          cases hgate : gate (s.iterations + 1) with
          | false => simp [hc, hcap, hA, hauto, hgate] at h
          | true =>
            cases hobs : (impl.observe strat (impl.act strat (impl.think strat))).requiresIteration with
            | false => simp [hc, hcap, hA, hauto, hgate, hobs] at h
            | true =>
              simp [hc, hcap, hA, hauto, hgate, hobs] at h ⊢
              exact ih _ _ h

/-- C10: whenever the iteration cap is reached (the cap warning appears in
the trace), the result returned by `executeWorkflow` carries the fallback
empty analysis `{plan: "", steps: [], requiresApproval: false, confidence:
0}` and an empty actions list — not the analysis or action results actually
produced during the final iteration — together with `success: false` and the
cap feedback message. -/
theorem c10_cap_result_fallback {σ : Type} (config : ExtensionConfig)
    (impl : WorkflowImpl σ) (gate : Nat → Bool) (token : Option (Nat → Bool)) (strat : σ)
    (h : EngineEv.capWarn ∈ (executeWorkflow config impl gate token strat).2.2) :
    (executeWorkflow config impl gate token strat).1 =
      .ok { success := false, analysis := emptyAnalysis, actions := []
            observations :=
              { success := false, requiresIteration := false
                feedback := "Max iterations (" ++ toString (effectiveMaxIterations config) ++
                  ") reached"
                improvements := none }
            iterations := (executeWorkflow config impl gate token strat).2.1.iterations } := by
  have hmem : EngineEv.capWarn ∈
      (executeLoop config impl gate token (effectiveMaxIterations config + 1) strat
        (initialWorkflowState impl)).2.2 := by
    simpa [executeWorkflow] using h
  have hres := executeLoop_capWarn_result config impl gate token _ strat
    (initialWorkflowState impl) hmem
  obtain ⟨ha, hact⟩ := capExitResult_fallback (effectiveMaxIterations config)
    (executeLoop config impl gate token (effectiveMaxIterations config + 1) strat
      (initialWorkflowState impl)).2.1
  simp only [executeWorkflow]
  rw [hres]
  congr 1
  simp only [capExitResult] at ha hact ⊢
  simp [WorkflowResult.mk.injEq, ha, hact]

/-- C10 witness: the concrete always-iterating run with cap 2 reaches the
cap and returns the fallback result. -/
theorem c10_cap_result_fallback_witness :
    (EngineEv.capWarn ∈ (executeWorkflow cfg2 loopingWorkflow (fun _ => true) none ()).2.2) ∧
    ((executeWorkflow cfg2 loopingWorkflow (fun _ => true) none ()).1 =
      .ok { success := false, analysis := emptyAnalysis, actions := []
            observations :=
              { success := false, requiresIteration := false
                feedback := "Max iterations (" ++ toString (effectiveMaxIterations cfg2) ++
                  ") reached"
                improvements := none }
            iterations := (executeWorkflow cfg2 loopingWorkflow (fun _ => true) none ()).2.1.iterations }) :=
  ⟨by decide, c10_cap_result_fallback cfg2 loopingWorkflow (fun _ => true) none () (by decide)⟩

/-! ## Claim C7 -/

/-- `Map.set` makes the key map to the new value. -/
theorem mapLookup_mapSet_self {β : Type} (m : List (Nat × β)) (k : Nat) (v : β) :
    mapLookup (mapSet m k v) k = some v := by
  induction m with
  | nil => simp [mapSet, mapLookup]
  | cons p rest ih =>
    obtain ⟨k', v'⟩ := p
    by_cases h : k' = k
    · simp [mapSet, mapLookup, h]
    · simp [mapSet, mapLookup, h, ih]

/-- With no cancellation token the loop never raises: its value is always a
normal `.ok` result, whatever the stored state says — the cancellation check
reads only the token. -/
theorem executeLoop_no_error_of_none {σ : Type} (config : ExtensionConfig)
    (impl : WorkflowImpl σ) (gate : Nat → Bool) :
    ∀ (fuel : Nat) (strat : σ) (s : WorkflowState) (e : String),
      (executeLoop config impl gate none fuel strat s).1 ≠ .error e
  | 0, strat, s, e => by simp [executeLoop, capExit]
  | fuel + 1, strat, s, e => by
    have ih := executeLoop_no_error_of_none config impl gate fuel
    by_cases hcap : effectiveMaxIterations config ≤ s.iterations
    · simp [executeLoop, tokenCancelled, hcap, capExit]
    · simp only [executeLoop]
      cases hA : (impl.think strat).requiresApproval with
      | false =>
        cases hobs : (impl.observe strat (impl.act strat (impl.think strat))).requiresIteration with
        | false => simp [tokenCancelled, hcap, hA, hobs]
        | true =>
          simp [tokenCancelled, hcap, hA, hobs]
          exact ih _ _ _
      | true =>
        cases hauto : config.autoApproveReadOnly with
        | true =>
          cases hobs : (impl.observe strat (impl.act strat (impl.think strat))).requiresIteration with
          | false => simp [tokenCancelled, hcap, hA, hauto, hobs]
          | true =>
            simp [tokenCancelled, hcap, hA, hauto, hobs]
            exact ih _ _ _
        | false =>
          cases hgate : gate (s.iterations + 1) with
          | false => simp [tokenCancelled, hcap, hA, hauto, hgate]
          | true =>
            cases hobs : (impl.observe strat (impl.act strat (impl.think strat))).requiresIteration with
            | false => simp [tokenCancelled, hcap, hA, hauto, hgate, hobs]
            | true =>
              simp [tokenCancelled, hcap, hA, hauto, hgate, hobs]
              exact ih _ _ _

/-- The state produced by cancelling the registered fixture execution. -/
def cancelledC7State : WorkflowState :=
  { initialWorkflowState loopingWorkflow with
    status := .failed, error := some "Cancelled by user", endTime := some 0 }

/-- C7 counterexample: `cancelWorkflow` returns true and marks the stored
state `'failed'`, but a loop resumed on that very state with an uncancelled
token does not terminate with a cancellation error; it goes on to invoke
think again (twice, up to the cap of 2). The claim that the running loop
detects `cancelWorkflow`'s flag at its next iteration-boundary check is
false: the check reads only `token?.isCancellationRequested`. -/
theorem c7_counterexample :
    cancelWorkflow [(0, initialWorkflowState loopingWorkflow)] 0 =
      (true, [(0, cancelledC7State)]) ∧
    EngineEv.thinkCall ∈ (executeLoop cfg2 loopingWorkflow (fun _ => true) none
      (effectiveMaxIterations cfg2 + 1) () cancelledC7State).2.2 ∧
    (executeLoop cfg2 loopingWorkflow (fun _ => true) none
      (effectiveMaxIterations cfg2 + 1) () cancelledC7State).1 =
      Except.ok
        { success := false, analysis := emptyAnalysis, actions := []
          observations :=
            { success := false, requiresIteration := false
              feedback := "Max iterations (2) reached", improvements := none }
          iterations := 2 } := by
  refine ⟨rfl, by decide, by rfl⟩

/-- C7 (amended): `cancelWorkflow` returns false when the id is unknown, and
for a known id returns true after marking the stored state `'failed'` with
the cancellation error and an end time — but this only flags the table
entry: the running loop's cancellation check reads the cancellation token
passed to `executeWorkflow`, so an execution whose caller supplied no token
never terminates with the cancellation error, regardless of what
`cancelWorkflow` wrote. -/
theorem c7_amended_cancel_flags_only :
    (∀ (m : List (Nat × WorkflowState)) (workflowId : Nat),
      mapLookup m workflowId = none → cancelWorkflow m workflowId = (false, m)) ∧
    (∀ (m : List (Nat × WorkflowState)) (workflowId : Nat) (s : WorkflowState),
      mapLookup m workflowId = some s →
      (cancelWorkflow m workflowId).1 = true ∧
      mapLookup (cancelWorkflow m workflowId).2 workflowId =
        some { s with status := .failed, error := some "Cancelled by user"
                      endTime := some 0 }) ∧
    (∀ (σ : Type) (config : ExtensionConfig) (impl : WorkflowImpl σ) (gate : Nat → Bool)
       (fuel : Nat) (strat : σ) (s : WorkflowState) (e : String),
      (executeLoop config impl gate none fuel strat s).1 ≠ .error e) := by
  refine ⟨?_, ?_, ?_⟩
  · intro m workflowId h
    simp [cancelWorkflow, h]
  · intro m workflowId s h
    constructor
    · simp [cancelWorkflow, h]
    · simp only [cancelWorkflow, h]
      exact mapLookup_mapSet_self m workflowId _
  · intro σ config impl gate fuel strat s e
    exact executeLoop_no_error_of_none config impl gate fuel strat s e

/-- C7 amended witness: each conjunct applied at a concrete input. -/
theorem c7_amended_cancel_flags_only_witness :
    (cancelWorkflow [] 0 = (false, [])) ∧
    ((cancelWorkflow [(0, initialWorkflowState loopingWorkflow)] 0).1 = true ∧
      mapLookup (cancelWorkflow [(0, initialWorkflowState loopingWorkflow)] 0).2 0 =
        some { initialWorkflowState loopingWorkflow with
               status := .failed, error := some "Cancelled by user", endTime := some 0 }) ∧
    ((executeLoop cfg2 loopingWorkflow (fun _ => true) none 3 () cancelledC7State).1 ≠
      Except.error "Workflow cancelled") :=
  ⟨c7_amended_cancel_flags_only.1 [] 0 rfl,
   c7_amended_cancel_flags_only.2.1 [(0, initialWorkflowState loopingWorkflow)] 0
     (initialWorkflowState loopingWorkflow) rfl,
   c7_amended_cancel_flags_only.2.2 Unit cfg2 loopingWorkflow (fun _ => true) 3 ()
     cancelledC7State "Workflow cancelled"⟩

/-! ## Gate lemmas -/

/-- Deleting a key right after setting it is the same as deleting it from
the original table. -/
theorem mapDelete_mapSet {β : Type} (m : List (Nat × β)) (k : Nat) (v : β) :
    mapDelete (mapSet m k v) k = mapDelete m k := by
  induction m with
  | nil => simp [mapSet, mapDelete]
  | cons p rest ih =>
    obtain ⟨k', v'⟩ := p
    simp only [mapDelete, ne_eq, decide_not] at ih ⊢
    by_cases h : k' = k <;> simp [mapSet, h, ih]

/-- Membership in a deleted table. -/
theorem mem_mapDelete {β : Type} (m : List (Nat × β)) (k : Nat) (p : Nat × β) :
    p ∈ mapDelete m k ↔ p ∈ m ∧ p.1 ≠ k := by
  simp [mapDelete, List.mem_filter]

/-- The pair written by `Map.set` is in the table. -/
theorem mem_mapSet_self {β : Type} (m : List (Nat × β)) (k : Nat) (v : β) :
    (k, v) ∈ mapSet m k v := by
  induction m with
  | nil => simp [mapSet]
  | cons p rest ih =>
    obtain ⟨k', v'⟩ := p
    by_cases h : k' = k <;> simp [mapSet, h, ih]

/-- A key never survives `Map.delete`. -/
theorem mapLookup_mapDelete_self {β : Type} (m : List (Nat × β)) (k : Nat) :
    mapLookup (mapDelete m k) k = none := by
  induction m with
  | nil => rfl
  | cons p rest ih =>
    obtain ⟨k', v'⟩ := p
    simp only [mapDelete, ne_eq, decide_not] at ih ⊢
    by_cases h : k' = k <;> simp [mapLookup, h, ih]

/-- With distinct keys, every entry of `mapSet m k v` is either the written
pair or an entry of `m` with a different key. -/
theorem mem_mapSet_of_nodup {β : Type} :
    ∀ (m : List (Nat × β)) (k : Nat) (v : β),
      (m.map (·.1)).Nodup →
      ∀ p : Nat × β, p ∈ mapSet m k v → p = (k, v) ∨ (p ∈ m ∧ p.1 ≠ k)
  | [], k, v => by
    intro _ p hp
    simp only [mapSet, List.mem_singleton] at hp
    exact Or.inl hp
  | (k', v') :: rest, k, v => by
    intro hnd p hp
    simp only [List.map_cons, List.nodup_cons] at hnd
    by_cases h : k' = k
    · subst h
      simp only [mapSet, eq_self_iff_true, if_true, List.mem_cons] at hp
      rcases hp with hp1 | hp1
      · exact Or.inl hp1
      · refine Or.inr ⟨List.mem_cons_of_mem _ hp1, fun hk => ?_⟩
        exact hnd.1 (hk ▸ List.mem_map_of_mem (fun q : Nat × β => q.1) hp1)
    · simp only [mapSet, if_neg h, List.mem_cons] at hp
      rcases hp with hp1 | hp1
      · exact Or.inr ⟨List.mem_cons.mpr (Or.inl hp1), by simp [hp1, h]⟩
      · rcases mem_mapSet_of_nodup rest k v hnd.2 p hp1 with hc | hc
        · exact Or.inl hc
        · exact Or.inr ⟨List.mem_cons_of_mem _ hc.1, hc.2⟩

/-- The rule walk of `shouldAutoApprove` equals an existence check: a
matching rule without `autoApprove` falls through rather than short-
circuiting, so the walk succeeds exactly when some rule both matches and
carries the flag. -/
theorem shouldAutoApprove_eq_any (rules : List GovernanceRule) (action : ProposedAction) :
    shouldAutoApprove rules action =
      rules.any fun r =>
        (r.pattern action.type || r.pattern action.description) && r.autoApprove := by
  induction rules with
  | nil => rfl
  | cons r rest ih =>
    cases hm : (r.pattern action.type || r.pattern action.description) <;>
      cases ha : r.autoApprove <;>
        simp [shouldAutoApprove, hm, ha, ih]

/-- `shouldAutoApprove` succeeds exactly when some rule matches the action
(by type or description) and carries `autoApprove`. -/
theorem shouldAutoApprove_iff (rules : List GovernanceRule) (action : ProposedAction) :
    shouldAutoApprove rules action = true ↔
      ∃ r ∈ rules, (r.pattern action.type || r.pattern action.description) = true ∧
        r.autoApprove = true := by
  rw [shouldAutoApprove_eq_any]
  simp [List.any_eq_true]

/-! ## Gate fixtures -/

/-- A rule auto-approving actions whose type is `read`. -/
def readRule : GovernanceRule :=
  { id := "allow-read", pattern := fun s => s == "read", requiresApproval := false
    autoApprove := true, priority := 100 }

/-- A read action matching `readRule`. -/
def readAction : ProposedAction :=
  { type := "read", description := "read the file", impact := "low", reversible := true }

/-- A write action matching no rule of the fixtures. -/
def writeAction : ProposedAction :=
  { type := "write", description := "write the file", impact := "medium", reversible := false }

/-- A pending approval request for the write action. -/
def pendingReq : ApprovalRequest :=
  { id := 1, action := writeAction, timestamp := 0, status := .pending, response := none }

/-- A gate holding one live pending request. -/
def gateState1 : HITLState :=
  { pendingApprovals := [(1, pendingReq)], governanceRules := [], approvalHandlers := [1] }

/-- A gate with one auto-approve rule and nothing pending. -/
def c5State : HITLState :=
  { pendingApprovals := [], governanceRules := [readRule], approvalHandlers := [] }

/-- An empty gate. -/
def emptyGateState : HITLState :=
  { pendingApprovals := [], governanceRules := [], approvalHandlers := [] }

/-! ## Claim C5 -/

/-- C5: whenever the action matches some governance rule with `autoApprove`
(by type or description — rules are kept in descending-priority order and a
matching rule without the flag falls through), `requestApproval` resolves to
true immediately and the gate state is completely untouched: no
`ApprovalRequest` is created, no pending entry or handler is added, no timer
is started and the dialog is never shown (the event list is empty). -/
theorem c5_auto_approve_no_request (config : ExtensionConfig) (st : HITLState)
    (action : ProposedAction) (timeout : Option Nat) (freshId : Nat) (now : Nat)
    (h : ∃ r ∈ st.governanceRules,
      (r.pattern action.type || r.pattern action.description) = true ∧
      r.autoApprove = true) :
    requestApproval config st action timeout freshId now = (.immediate true, st, []) := by
  have ha : shouldAutoApprove st.governanceRules action = true :=
    (shouldAutoApprove_iff _ _).mpr h
  simp [requestApproval, ha]

/-- C5 witness: scenario C — a priority-100 auto-approve rule matching type
`read`; the request resolves true with no state change and no events. -/
theorem c5_auto_approve_no_request_witness :
    (∃ r ∈ c5State.governanceRules,
      (r.pattern readAction.type || r.pattern readAction.description) = true ∧
      r.autoApprove = true) ∧
    requestApproval cfg2 c5State readAction none 7 0 = (.immediate true, c5State, []) :=
  ⟨⟨readRule, by simp [c5State], rfl, rfl⟩,
   c5_auto_approve_no_request cfg2 c5State readAction none 7 0
     ⟨readRule, by simp [c5State], rfl, rfl⟩⟩

/-! ## Claim C8 -/

/-- C8: a request not settled by any decision expires: `requestApproval` on
a non-auto-approved action registers a pending request and starts a timer
for the caller-supplied timeout, else the configured default, else 30000 ms;
when that timer fires, the decision future resolves false, the request
object is marked `'expired'`, and the request is absent from
`getPendingApprovals` immediately afterwards. -/
theorem c8_timeout_resolves_false (config : ExtensionConfig) (st : HITLState)
    (action : ProposedAction) (timeout : Option Nat) (freshId : Nat) (now : Nat)
    (hauto : shouldAutoApprove st.governanceRules action = false)
    (hwf : ∀ p ∈ st.pendingApprovals, p.2.id = p.1) :
    (requestApproval config st action timeout freshId now).1 = .pendingDecision freshId ∧
    (requestApproval config st action timeout freshId now).2.2 =
      [.timerStarted freshId (effectiveTimeout timeout config), .dialogShown freshId] ∧
    (approvalTimerFire (requestApproval config st action timeout freshId now).2.1 freshId).2.1 =
      [.resolvedFuture freshId false] ∧
    (approvalTimerFire (requestApproval config st action timeout freshId now).2.1 freshId).2.2 =
      some { id := freshId, action := action, timestamp := now, status := .expired
             response := none } ∧
    (∀ q ∈ getPendingApprovals
        (approvalTimerFire (requestApproval config st action timeout freshId now).2.1 freshId).1,
      q.id ≠ freshId) ∧
    (∀ t : Nat, t ≠ 0 → effectiveTimeout (some t) config = t) ∧
    (config.approvalTimeout ≠ 0 → effectiveTimeout none config = config.approvalTimeout) ∧
    (config.approvalTimeout = 0 → effectiveTimeout none config = 30000) := by
  refine ⟨by simp [requestApproval, hauto, shouldAutoDeny],
          by simp [requestApproval, hauto, shouldAutoDeny],
          by simp [approvalTimerFire],
          ?_, ?_, ?_, ?_, ?_⟩
  · simp [requestApproval, hauto, shouldAutoDeny, approvalTimerFire, mapLookup_mapSet_self]
  · intro q hq
    simp only [requestApproval, hauto, shouldAutoDeny, Bool.false_eq_true, if_neg,
      not_false_iff, approvalTimerFire, getPendingApprovals] at hq
    rw [mapDelete_mapSet] at hq
    simp only [List.mem_filter, List.mem_map] at hq
    obtain ⟨⟨p, hp, hq2⟩, _⟩ := hq
    obtain ⟨hpm, hpk⟩ := (mem_mapDelete _ _ _).mp hp
    have hid := hwf p hpm
    intro hk
    exact hpk (by rw [← hq2] at hk; rw [← hid, hk])
  · intro t ht
    simp [effectiveTimeout, ht]
  · intro hc
    simp [effectiveTimeout, hc]
  · intro hc
    simp [effectiveTimeout, hc]

/-- C8 witness: an empty gate, no caller timeout and an unset configured
timeout, so the timer runs for 30000 ms; firing it resolves false and leaves
nothing pending. -/
theorem c8_timeout_resolves_false_witness :
    (shouldAutoApprove emptyGateState.governanceRules writeAction = false) ∧
    (∀ p ∈ emptyGateState.pendingApprovals, p.2.id = p.1) ∧
    ((requestApproval cfg2 emptyGateState writeAction none 5 3).1 = .pendingDecision 5 ∧
     (requestApproval cfg2 emptyGateState writeAction none 5 3).2.2 =
       [.timerStarted 5 (effectiveTimeout none cfg2), .dialogShown 5] ∧
     (approvalTimerFire (requestApproval cfg2 emptyGateState writeAction none 5 3).2.1 5).2.1 =
       [.resolvedFuture 5 false] ∧
     (approvalTimerFire (requestApproval cfg2 emptyGateState writeAction none 5 3).2.1 5).2.2 =
       some { id := 5, action := writeAction, timestamp := 3, status := .expired
              response := none } ∧
     (∀ q ∈ getPendingApprovals
         (approvalTimerFire (requestApproval cfg2 emptyGateState writeAction none 5 3).2.1 5).1,
       q.id ≠ 5) ∧
     (∀ t : Nat, t ≠ 0 → effectiveTimeout (some t) cfg2 = t) ∧
     (cfg2.approvalTimeout ≠ 0 → effectiveTimeout none cfg2 = cfg2.approvalTimeout) ∧
     (cfg2.approvalTimeout = 0 → effectiveTimeout none cfg2 = 30000)) :=
  ⟨rfl, by simp [emptyGateState],
   c8_timeout_resolves_false cfg2 emptyGateState writeAction none 5 3 rfl
     (by simp [emptyGateState])⟩

/-! ## Claim C2 -/

/-- C2 counterexample: a request settled by an explicit decision stays in
the table for the retention window, so a second `handleApproval` on the same
id within that window finds it and overwrites its terminal status and
response comment (`approved`/"ok" becomes `denied`/"changed") — the second
call is not free of observable effect. It does not re-resolve the future
(the handler is gone, so the second call's events are only the re-scheduled
eviction), but the stored record changes. -/
theorem c2_counterexample :
    mapLookup ((handleApproval ((handleApproval gateState1 1 true (some "ok")).1) 1 false
        (some "changed")).1).pendingApprovals 1 =
      some { id := 1, action := writeAction, timestamp := 0, status := .denied
             response := some "changed" } ∧
    ((handleApproval ((handleApproval gateState1 1 true (some "ok")).1) 1 false
        (some "changed")).2) = [.scheduledHistoryDelete 1 60000] :=
  ⟨rfl, rfl⟩

/-- C2 (amended): a second `handleApproval` on an already-settled id never
resolves the decision future again and never raises — a call on an id absent
from the table is a complete no-op, a call while no handler is live emits no
resolution event, and any settling call removes the handler, so the future
is resolved at most once. However, when the first settlement was an explicit
decision the entry remains in the table during the retention window and a
second call within that window overwrites the stored status and response
comment (see the counterexample); only after a timeout, a cancellation or
the retention eviction (which delete the entry) is the second call a full
no-op. -/
theorem c2_amended_second_resolve :
    (∀ (st : HITLState) (requestId : Nat) (approved : Bool) (comment : Option String),
      mapLookup st.pendingApprovals requestId = none →
      handleApproval st requestId approved comment = (st, [])) ∧
    (∀ (st : HITLState) (requestId : Nat) (approved : Bool) (comment : Option String)
       (b : Bool),
      requestId ∉ st.approvalHandlers →
      GateEv.resolvedFuture requestId b ∉ (handleApproval st requestId approved comment).2) ∧
    (∀ (st : HITLState) (requestId : Nat) (approved : Bool) (comment : Option String)
       (r : ApprovalRequest),
      mapLookup st.pendingApprovals requestId = some r →
      requestId ∉ (handleApproval st requestId approved comment).1.approvalHandlers) := by
  refine ⟨?_, ?_, ?_⟩
  · intro st requestId approved comment h
    simp [handleApproval, h]
  · intro st requestId approved comment b h
    cases hl : mapLookup st.pendingApprovals requestId with
    | none => simp [handleApproval, hl]
    | some r => simp [handleApproval, hl, h]
  · intro st requestId approved comment r hl
    by_cases hmem : requestId ∈ st.approvalHandlers <;>
      simp [handleApproval, hl, hmem, List.mem_filter]

/-- C2 amended witness: each conjunct at a concrete input — an unknown id is
a no-op; the second call after an explicit decision resolves nothing; the
first call removes the handler. -/
theorem c2_amended_second_resolve_witness :
    (handleApproval emptyGateState 1 true none = (emptyGateState, [])) ∧
    (GateEv.resolvedFuture 1 false ∉
      (handleApproval ((handleApproval gateState1 1 true (some "ok")).1) 1 false
        (some "changed")).2) ∧
    (1 ∉ (handleApproval gateState1 1 true (some "ok")).1.approvalHandlers) :=
  ⟨c2_amended_second_resolve.1 emptyGateState 1 true none rfl,
   c2_amended_second_resolve.2.1 ((handleApproval gateState1 1 true (some "ok")).1) 1 false
     (some "changed") false (by decide),
   c2_amended_second_resolve.2.2 gateState1 1 true (some "ok") pendingReq rfl⟩

/-! ## Claim C6 -/

/-- C6 counterexample: a request settled by timeout or by cancellation is
deleted from the single request table immediately, so it is not queryable in
`getAllApprovals` for any grace period — the claimed 60 s retention holds
only for explicit decisions. -/
theorem c6_counterexample :
    getAllApprovals (approvalTimerFire gateState1 1).1 = [] ∧
    getAllApprovals (cancelApproval gateState1 1).2.1 = [] :=
  ⟨rfl, rfl⟩

/-- C6 (amended): every settlement removes the request from the pending
view immediately, but only explicit decisions (`handleApproval`) retain the
request in the all/history view for the 60000 ms grace period before the
scheduled eviction removes it; timeout and cancellation settlements delete
the request from the single table — and hence from `getAllApprovals` —
immediately. -/
theorem c6_amended_retention_only_explicit :
    (∀ (st : HITLState) (requestId : Nat) (approved : Bool) (comment : Option String)
       (r : ApprovalRequest),
      (∀ p ∈ st.pendingApprovals, p.2.id = p.1) →
      (st.pendingApprovals.map (·.1)).Nodup →
      mapLookup st.pendingApprovals requestId = some r →
      ({ r with status := if approved then AStatus.approved else AStatus.denied
                response := comment } ∈
        getAllApprovals (handleApproval st requestId approved comment).1) ∧
      (∀ q ∈ getPendingApprovals (handleApproval st requestId approved comment).1,
        q.id ≠ requestId) ∧
      GateEv.scheduledHistoryDelete requestId 60000 ∈
        (handleApproval st requestId approved comment).2 ∧
      (∀ q ∈ getAllApprovals
          (historyDeleteFire (handleApproval st requestId approved comment).1 requestId),
        q.id ≠ requestId)) ∧
    (∀ (st : HITLState) (requestId : Nat),
      (∀ p ∈ st.pendingApprovals, p.2.id = p.1) →
      ∀ q ∈ getAllApprovals (approvalTimerFire st requestId).1, q.id ≠ requestId) ∧
    (∀ (st : HITLState) (requestId : Nat) (r : ApprovalRequest),
      (∀ p ∈ st.pendingApprovals, p.2.id = p.1) →
      mapLookup st.pendingApprovals requestId = some r →
      r.status = AStatus.pending →
      ∀ q ∈ getAllApprovals (cancelApproval st requestId).2.1, q.id ≠ requestId) := by
  refine ⟨?_, ?_, ?_⟩
  · intro st requestId approved comment r hwf hnd hl
    have hpend : (handleApproval st requestId approved comment).1.pendingApprovals =
        mapSet st.pendingApprovals requestId
          { r with status := if approved then AStatus.approved else AStatus.denied
                   response := comment } := by
      by_cases hmem : requestId ∈ st.approvalHandlers <;>
        simp [handleApproval, hl, hmem]
    refine ⟨?_, ?_, ?_, ?_⟩
    · simp only [getAllApprovals, hpend]
      exact List.mem_map_of_mem (fun p : Nat × ApprovalRequest => p.2)
        (mem_mapSet_self _ _ _)
    · intro q hq
      simp only [getPendingApprovals, hpend, List.mem_filter, List.mem_map] at hq
      obtain ⟨⟨p, hp, hq2⟩, hstat⟩ := hq
      rcases mem_mapSet_of_nodup _ _ _ hnd p hp with hc | hc
      · rw [← hq2, hc]
        simp at hstat
        rw [← hq2, hc] at hstat
        cases approved <;> simp_all
      · have hid := hwf p hc.1
        intro hk
        exact hc.2 (by rw [← hq2] at hk; rw [← hid, hk])
    · by_cases hmem : requestId ∈ st.approvalHandlers <;>
        simp [handleApproval, hl, hmem]
    · intro q hq
      simp only [historyDeleteFire, getAllApprovals, hpend, mapDelete_mapSet,
        List.mem_map] at hq
      obtain ⟨p, hp, hq2⟩ := hq
      obtain ⟨hpm, hpk⟩ := (mem_mapDelete _ _ _).mp hp
      have hid := hwf p hpm
      intro hk
      exact hpk (by rw [← hq2] at hk; rw [← hid, hk])
  · intro st requestId hwf q hq
    simp only [approvalTimerFire, getAllApprovals, List.mem_map] at hq
    obtain ⟨p, hp, hq2⟩ := hq
    obtain ⟨hpm, hpk⟩ := (mem_mapDelete _ _ _).mp hp
    have hid := hwf p hpm
    intro hk
    exact hpk (by rw [← hq2] at hk; rw [← hid, hk])
  · intro st requestId r hwf hl hpendstat q hq
    simp only [cancelApproval, hl, hpendstat] at hq
    simp only [getAllApprovals, mapDelete_mapSet, List.mem_map] at hq
    obtain ⟨p, hp, hq2⟩ := hq
    obtain ⟨hpm, hpk⟩ := (mem_mapDelete _ _ _).mp hp
    have hid := hwf p hpm
    intro hk
    exact hpk (by rw [← hq2] at hk; rw [← hid, hk])

/-- C6 amended witness: each settlement path at the concrete one-request
gate. -/
theorem c6_amended_retention_only_explicit_witness :
    (({ pendingReq with status := AStatus.approved, response := some "ok" } ∈
        getAllApprovals (handleApproval gateState1 1 true (some "ok")).1) ∧
      (∀ q ∈ getPendingApprovals (handleApproval gateState1 1 true (some "ok")).1,
        q.id ≠ 1) ∧
      GateEv.scheduledHistoryDelete 1 60000 ∈
        (handleApproval gateState1 1 true (some "ok")).2 ∧
      (∀ q ∈ getAllApprovals
          (historyDeleteFire (handleApproval gateState1 1 true (some "ok")).1 1),
        q.id ≠ 1)) ∧
    (∀ q ∈ getAllApprovals (approvalTimerFire gateState1 1).1, q.id ≠ 1) ∧
    (∀ q ∈ getAllApprovals (cancelApproval gateState1 1).2.1, q.id ≠ 1) :=
  ⟨by
    have h := c6_amended_retention_only_explicit.1 gateState1 1 true (some "ok") pendingReq
      (by simp [gateState1, pendingReq]) (by simp [gateState1, pendingReq]) rfl
    simpa using h,
   c6_amended_retention_only_explicit.2.1 gateState1 1 (by simp [gateState1, pendingReq]),
   c6_amended_retention_only_explicit.2.2 gateState1 1 pendingReq
     (by simp [gateState1, pendingReq]) rfl rfl⟩

end AgentStarter
